import Mathlib

/-! Composition functions `xfn-many` and `xfn-random`.

A shallow embedding of the two `main` programs of the composition-function lab
(`xfn-many/main.go`, the Scaling Reconciler, and `xfn-random/main.go`, the
Attribute Merger) together with the properties of their outputs.

Both programs read a `FunctionIO` envelope from standard input, rebuild the
list `desired.resources` and print the envelope again.  Everything the programs
obtain from imported packages (YAML and JSON codecs, the random sources) is an
explicit argument of the embedded programs.
-/

set_option autoImplicit false

namespace Contribfest

/-! Data model (the parts of the imported API types the programs touch) -/

/-- The type `runtime.RawExtension`: a serialized object, kept as its bytes. -/
structure RawExtension where
  Raw : String
deriving DecidableEq

/-- The type `v1alpha1.ObservedComposite`. -/
structure ObservedComposite where
  Resource : RawExtension
  ConnectionDetails : List (String × String) := []
deriving DecidableEq

/-- The type `v1alpha1.ObservedResource`: a named, serialized observed child. -/
structure ObservedResource where
  Name : String
  Resource : RawExtension
  ConnectionDetails : List (String × String) := []
deriving DecidableEq

/-- The type `v1alpha1.Observed`. -/
structure Observed where
  Composite : ObservedComposite
  Resources : List ObservedResource
deriving DecidableEq

/-- The type `v1alpha1.DesiredComposite`. -/
structure DesiredComposite where
  Resource : RawExtension
  ConnectionDetails : List (String × String) := []
deriving DecidableEq

/-- The type `v1alpha1.DesiredResource`: a named, serialized desired child. The
two last fields are never read or written by the programs. -/
structure DesiredResource where
  Name : String
  Resource : RawExtension
  ConnectionDetails : List String := []
  ReadinessChecks : List String := []
deriving DecidableEq

/-- The type `v1alpha1.Desired`. -/
structure Desired where
  Composite : DesiredComposite
  Resources : List DesiredResource
deriving DecidableEq

/-- The type `v1alpha1.FunctionIO`: the envelope exchanged with the orchestrator. -/
structure FunctionIO where
  Config : Option RawExtension := none
  Observed : Observed
  Desired : Desired
  Results : List String := []
deriving DecidableEq

/-- The type `dummyv1alpha1.RobotParameters`. -/
structure RobotParameters where
  Color : String
deriving DecidableEq

/-- The type `dummyv1alpha1.RobotSpec`. -/
structure RobotSpec where
  ForProvider : RobotParameters
deriving DecidableEq

/-- The type `dummyv1alpha1.Robot`: type meta (`APIVersion`, `Kind`), the object
name, the spec, and `Rest` standing for all remaining content of the object
(other metadata, status), which the programs never inspect. -/
structure Robot where
  APIVersion : String
  Kind : String
  Name : String
  Spec : RobotSpec
  Rest : String
deriving DecidableEq

/-- The zero value `&dummyv1alpha1.Robot{}`. -/
def Robot.zero : Robot :=
  { APIVersion := "", Kind := "", Name := "", Spec := { ForProvider := { Color := "" } }, Rest := "" }

/-- The type `schema.GroupVersionKind`. -/
structure GroupVersionKind where
  Group : String
  Version : String
  Kind : String
deriving DecidableEq

/-- The method `GroupVersionKind.ToAPIVersionAndKind`, first component. -/
def GroupVersionKind.apiVersion (gvk : GroupVersionKind) : String :=
  if gvk.Group = "" then gvk.Version else gvk.Group ++ "/" ++ gvk.Version

/-- The method `SetName` of the object meta. -/
def Robot.SetName (r : Robot) (name : String) : Robot :=
  { r with Name := name }

/-- The method `SetGroupVersionKind` of the type meta. -/
def Robot.SetGroupVersionKind (r : Robot) (gvk : GroupVersionKind) : Robot :=
  { r with APIVersion := gvk.apiVersion, Kind := gvk.Kind }

/-- The assignment `r.Spec.ForProvider.Color = c`. -/
def Robot.setColor (r : Robot) (c : String) : Robot :=
  { r with Spec := { ForProvider := { Color := c } } }

/-- Modelled from the spec: the parent resource as `xfn-many` reads it through
the imported type `composite.Unstructured`, that is its `metadata.name` and its
integer leaves, addressed by field path. -/
structure Unstructured where
  Name : String
  Integers : List (String × Int)
deriving DecidableEq

/-- Modelled from the spec: the imported method `GetName`, the name of the parent. -/
def Unstructured.GetName (u : Unstructured) : String := u.Name

/-- Modelled from the spec: the imported call
`fieldpath.Pave(u.Object).GetInteger(path)`, the `int64` stored at the path, an
error when there is none or when it is no `int64`. -/
def GetInteger (u : Unstructured) (path : String) : Except String Int :=
  match u.Integers.lookup path with
  | some v =>
    if -9223372036854775808 ≤ v ∧ v ≤ 9223372036854775807 then .ok v
    else .error (path ++ ": not a (int64) number")
  | none => .error (path ++ ": no such field")

/-- Wrap-around (in the complement of two) of the 64-bit `int` of Go. -/
def wrapInt (x : Int) : Int :=
  (x + 9223372036854775808) % 18446744073709551616 - 9223372036854775808

/-! Imported functions -/

/-- The codec functions of the imported packages, as the programs call them:
`yaml.Unmarshal` at the three target types, `yaml.Marshal` of the envelope,
`json.Unmarshal` and `json.Marshal` of a `Robot`, and the constant
`dummyv1alpha1.RobotGroupVersionKind`. -/
structure Lib where
  yamlUnmarshalEnvelope : String → Except String FunctionIO
  yamlMarshalEnvelope : FunctionIO → Except String String
  yamlUnmarshalUnstructured : String → Except String Unstructured
  yamlUnmarshalRobot : String → Except String Robot
  jsonUnmarshalRobot : String → Except String Robot
  jsonMarshalRobot : Robot → Except String String
  RobotGroupVersionKind : GroupVersionKind

/-- The global source of `math/rand`: the stream of its successive raw draws. -/
abbrev PRNG := Nat → Nat

/-- The reader of `crypto/rand`: each read yields a raw value or an error. -/
abbrev CryptoSource := Nat → Except String Nat

/-- A random stream after its first draw is consumed. -/
def advance {α : Type} (s : Nat → α) : Nat → α := fun i => s (i + 1)

/-- How a run can stop early: a Go `error` (reported, then `os.Exit(1)`), or a
run-time panic. -/
inductive Fault where
  | error (msg : String)
  | panic (msg : String)
deriving DecidableEq

/-- The outcome of a run of `main`: exit code 0 after printing the serialized
envelope `out` on standard output; exit code 1 after printing a diagnostic
on standard error (nothing on standard output); or a panic. -/
inductive Outcome where
  | exit0 (out : FunctionIO)
  | exit1 (stderr : String)
  | panic (msg : String)
deriving DecidableEq

/-- The end of `main`: falling off its end is exit code 0, an error is exit 1. -/
def Outcome.ofExcept : Except Fault FunctionIO → Outcome
  | .ok out => .exit0 out
  | .error (.error msg) => .exit1 msg
  | .error (.panic msg) => .panic msg

/-- The pattern `if err != nil { fmt.Fprintf(os.Stderr, msg, err); os.Exit(1) }`. -/
def orExit {α : Type} (msg : String) : Except String α → Except Fault α
  | .ok a => .ok a
  | .error e => .error (.error (msg ++ e))

/-- Modelled from the spec: the imported call `rand.Intn(n)` on the raw draw
`raw`, a value in `[0, n)`, and a panic for `n ≤ 0`. -/
def Intn (raw : Nat) (n : Nat) : Except Fault Nat :=
  if n = 0 then .error (.panic "invalid argument to Intn") else .ok (raw % n)

/-- The indexing `xs[i]` of a Go slice or string: a panic when out of range. -/
def index {α : Type} (xs : List α) (i : Nat) : Except Fault α :=
  match xs[i]? with
  | some x => .ok x
  | none => .error (.panic "index out of range")

/-! The package `password` -/

/-- The type `password.Settings`. -/
structure Settings where
  CharacterSet : String
  Length : Nat
deriving DecidableEq

/-- Modelled from the spec: the loop of `password.Settings.Generate` (package
`crossplane-runtime/pkg/password`, not part of the sources): `n` characters,
each drawn from the character set `cs` at an index obtained from the
`crypto/rand` reader, whose failure is returned as the error. -/
def generateChars (cs : List Char) : Nat → CryptoSource → Except Fault (List Char × CryptoSource)
  | 0, src => .ok ([], src)
  | n + 1, src =>
    match src 0 with
    | .error e => .error (.error e)
    | .ok raw =>
      match Intn raw cs.length with
      | .error f => .error f
      | .ok i =>
        match index cs i with
        | .error f => .error f
        | .ok c =>
          match generateChars cs n (advance src) with
          | .error f => .error f
          | .ok (pw, src1) => .ok (c :: pw, src1)

/-- Modelled from the spec: `password.Settings.Generate`, a string of `Length`
characters drawn from `CharacterSet`. -/
def Settings.Generate (s : Settings) (src : CryptoSource) : Except Fault (String × CryptoSource) :=
  match generateChars s.CharacterSet.toList s.Length src with
  | .error f => .error f
  | .ok (pw, src1) => .ok (String.mk pw, src1)

/-! `xfn-many`: the Scaling Reconciler -/

namespace XfnMany

/-- The variable `Colors`. -/
def Colors : List String :=
  ["red", "green", "blue", "yellow", "orange", "purple", "black", "white"]

/-- The function `generateSuffix`. -/
def generateSuffix (src : CryptoSource) : Except Fault (String × CryptoSource) :=
  Settings.Generate { CharacterSet := "abcdefghijklmnopqrstuvwxyz0123456789", Length := 5 } src

/-- The suffixes returned by the first `n` calls of `generateSuffix` on the
reader `src`, up to the first call that fails. -/
def suffixes : Nat → CryptoSource → List String
  | 0, _ => []
  | n + 1, src =>
    match generateSuffix src with
    | .ok (suf, src1) => suf :: suffixes n src1
    | .error _ => []

/-- The record `v1alpha1.DesiredResource{Name: r.Name, Resource: r.Resource}`
that `main` builds from an observed resource `r` (lines 46-49). -/
def ofObserved (r : ObservedResource) : DesiredResource :=
  { Name := r.Name, Resource := r.Resource }

/-- The loop `for _, r := range obj.Observed.Resources` of `main` (lines 44-50):
every observed record is appended to `robots` with its name and payload. -/
def observedRobots : List ObservedResource → List DesiredResource → List DesiredResource
  | [], robots => robots
  | r :: rest, robots =>
    observedRobots rest (robots ++ [ofObserved r])

/-- The loop `for i := 0; i < add; i++` of `main` (lines 52-80), with the
number of remaining iterations as first argument. An iteration generates a
suffix, builds a `Robot` with a random colour, name and kind, serializes it
and appends the record to `robots`; a failure ends the run. -/
def addRobots (lib : Lib) (groupName : String) :
    Nat → CryptoSource → PRNG → List DesiredResource → Except Fault (List DesiredResource)
  | 0, _, _, robots => .ok robots
  | n + 1, src, prng, robots =>
    match generateSuffix src with
    | .error (.error e) => .error (.error ("failed to generate random suffix for name: " ++ e))
    | .error (.panic m) => .error (.panic m)
    | .ok (suf, src1) =>
      match Intn (prng 0) Colors.length with
      | .error f => .error f
      | .ok i =>
        match index Colors i with
        | .error f => .error f
        | .ok color =>
          let r := Robot.zero.setColor color
          let r := r.SetName (groupName ++ "-" ++ suf)
          let r := r.SetGroupVersionKind lib.RobotGroupVersionKind
          match lib.jsonMarshalRobot r with
          | .error e => .error (.error ("failed to marshal resource: " ++ e))
          | .ok raw =>
            addRobots lib groupName n src1 (advance prng)
              (robots ++ [{ Name := "robot-" ++ suf, Resource := { Raw := raw } }])

/-- The function `main` of `xfn-many`, from the result of reading standard input. -/
def main (lib : Lib) (src : CryptoSource) (prng : PRNG) (stdin : Except String String) : Outcome :=
  Outcome.ofExcept <|
    match orExit "failed to read stdin: " stdin with
    | .error f => .error f
    | .ok b =>
    match orExit "failed to unmarshal stdin: " (lib.yamlUnmarshalEnvelope b) with
    | .error f => .error f
    | .ok obj =>
    match orExit "failed to unmarshal observed composite: "
        (lib.yamlUnmarshalUnstructured obj.Observed.Composite.Resource.Raw) with
    | .error f => .error f
    | .ok robotGroup =>
    match orExit "failed to get the count from observed composite: "
        (GetInteger robotGroup "spec.count") with
    | .error f => .error f
    | .ok count =>
    let robots := observedRobots obj.Observed.Resources []
    let add := wrapInt (wrapInt count - (robots.length : Int))
    match addRobots lib robotGroup.GetName add.toNat src prng robots with
    | .error f => .error f
    | .ok robots =>
    let obj := { obj with Desired := { obj.Desired with Resources := robots } }
    match orExit "failed to marshal resulting functionio: " (lib.yamlMarshalEnvelope obj) with
    | .error f => .error f
    | .ok _ => .ok obj

end XfnMany

/-! `xfn-random`: the Attribute Merger -/

namespace XfnRandom

/-- The variable `Colors`. -/
def Colors : List String :=
  ["red", "green", "blue", "yellow", "orange", "purple", "black", "white"]

/-- A Go `map[string]string` read through `m[key]`: the stored value, or the
empty string for a key that was never set. -/
abbrev ColorMap := String → String

/-- The assignment `m[key] = value`. -/
def ColorMap.set (m : ColorMap) (key value : String) : ColorMap :=
  fun k => if k = key then value else m k

/-- The loop `for _, observed := range obj.Observed.Resources` of `main`
(lines 32-39): decode each observed payload, record its colour under its name. -/
def observedColors (lib : Lib) : List ObservedResource → ColorMap → Except Fault ColorMap
  | [], colors => .ok colors
  | observed :: rest, colors =>
    match orExit "failed to unmarshal observed resource: "
        (lib.jsonUnmarshalRobot observed.Resource.Raw) with
    | .error f => .error f
    | .ok r => observedColors lib rest (colors.set observed.Name r.Spec.ForProvider.Color)

/-- The loop `for i, desired := range obj.Desired.Resources` of `main`
(lines 40-59). Iteration `i` reads entry `i` and overwrites the `Resource`
of that same entry only, so the slice after the loop is the list of the
rewritten entries, computed here front to back. -/
def mergeDesired (lib : Lib) (colors : ColorMap) :
    List DesiredResource → PRNG → Except Fault (List DesiredResource)
  | [], _ => .ok []
  | desired :: rest, prng =>
    match orExit "failed to unmarshal desired resource: "
        (lib.yamlUnmarshalRobot desired.Resource.Raw) with
    | .error f => .error f
    | .ok r =>
      let picked : Except Fault (String × PRNG) :=
        if colors desired.Name ≠ "" then .ok (colors desired.Name, prng)
        else
          match Intn (prng 0) Colors.length with
          | .error f => .error f
          | .ok i =>
            match index Colors i with
            | .error f => .error f
            | .ok c => .ok (c, advance prng)
      match picked with
      | .error f => .error f
      | .ok (color, prng1) =>
        match orExit "failed to marshal resource: " (lib.jsonMarshalRobot (r.setColor color)) with
        | .error f => .error f
        | .ok raw =>
          match mergeDesired lib colors rest prng1 with
          | .error f => .error f
          | .ok out => .ok ({ desired with Resource := { Raw := raw } } :: out)

/-- The function `main` of `xfn-random`, from the result of reading standard input. -/
def main (lib : Lib) (prng : PRNG) (stdin : Except String String) : Outcome :=
  Outcome.ofExcept <|
    match orExit "failed to read stdin: " stdin with
    | .error f => .error f
    | .ok b =>
    match orExit "failed to unmarshal stdin: " (lib.yamlUnmarshalEnvelope b) with
    | .error f => .error f
    | .ok obj =>
    match observedColors lib obj.Observed.Resources (fun _ => "") with
    | .error f => .error f
    | .ok colors =>
    match mergeDesired lib colors obj.Desired.Resources prng with
    | .error f => .error f
    | .ok resources =>
    let obj := { obj with Desired := { obj.Desired with Resources := resources } }
    match orExit "failed to marshal resulting functionio: " (lib.yamlMarshalEnvelope obj) with
    | .error f => .error f
    | .ok _ => .ok obj

end XfnRandom

/-! A concrete instance of the imported functions

Used to run the two programs on concrete envelopes. A `Robot` is written as
its five strings one after the other, each character preceded by `.` and each
string closed by `;`. Envelopes and composites are decoded by table lookup. -/

namespace Demo

/-- One string of the text form: every character after a dot, then `;`. -/
def encodeField : List Char → List Char
  | [] => [';']
  | c :: cs => '.' :: c :: encodeField cs

/-- Reads one string of the text form; gives it with the rest of the input. -/
def decodeField : List Char → Option (List Char × List Char)
  | [] => none
  | [a] => if a = ';' then some ([], []) else none
  | a :: c :: rest =>
    if a = ';' then some ([], c :: rest)
    else if a = '.' then
      match decodeField rest with
      | some (field, tail) => some (c :: field, tail)
      | none => none
    else none

/-- The text form of a `Robot`. -/
def encodeRobot (r : Robot) : String :=
  String.mk (encodeField r.APIVersion.toList ++ (encodeField r.Kind.toList ++
    (encodeField r.Name.toList ++ (encodeField r.Spec.ForProvider.Color.toList ++
      encodeField r.Rest.toList))))

/-- Reads a `Robot` from its text form; any other input is an error. -/
def decodeRobot (raw : String) : Except String Robot :=
  match decodeField raw.toList with
  | none => .error "cannot unmarshal into Go value of type Robot"
  | some (apiVersion, t1) =>
  match decodeField t1 with
  | none => .error "cannot unmarshal into Go value of type Robot"
  | some (kind, t2) =>
  match decodeField t2 with
  | none => .error "cannot unmarshal into Go value of type Robot"
  | some (name, t3) =>
  match decodeField t3 with
  | none => .error "cannot unmarshal into Go value of type Robot"
  | some (color, t4) =>
  match decodeField t4 with
  | some (rest, []) =>
    .ok { APIVersion := String.mk apiVersion, Kind := String.mk kind, Name := String.mk name,
          Spec := { ForProvider := { Color := String.mk color } }, Rest := String.mk rest }
  | _ => .error "cannot unmarshal into Go value of type Robot"

/-- Decoding by table lookup. -/
def decodeWith {α : Type} (table : List (String × α)) (b : String) : Except String α :=
  match table.lookup b with
  | some a => .ok a
  | none => .error "cannot parse"

/-- The instance: envelopes and composites decoded from the given tables, robots
in the text form above, the envelope always encodable. -/
def lib (envelopes : List (String × FunctionIO)) (composites : List (String × Unstructured)) : Lib :=
  { yamlUnmarshalEnvelope := decodeWith envelopes
    yamlMarshalEnvelope := fun _ => .ok "functionio"
    yamlUnmarshalUnstructured := decodeWith composites
    yamlUnmarshalRobot := decodeRobot
    jsonUnmarshalRobot := decodeRobot
    jsonMarshalRobot := fun r => .ok (encodeRobot r)
    RobotGroupVersionKind := { Group := "iam.dummy.upbound.io", Version := "v1alpha1", Kind := "Robot" } }

/-- A `Robot` payload with only a name and a colour. -/
def robotRaw (name color : String) : RawExtension :=
  { Raw := encodeRobot ((Robot.zero.setColor color).SetName name) }

/-- An envelope with the given observed and desired lists; its composite payload
is the text `robotgroup`. -/
def envelope (observed : List ObservedResource) (desired : List DesiredResource) : FunctionIO :=
  { Observed := { Composite := { Resource := { Raw := "robotgroup" } }, Resources := observed }
    Desired := { Composite := { Resource := { Raw := "" } }, Resources := desired } }

/-- The composite named `bots` with the given `spec.count`. -/
def bots (count : Int) : Unstructured :=
  { Name := "bots", Integers := [("spec.count", count)] }

/-- The instance in which standard input `stdin` holds the envelope `obj` and the
composite payload `robotgroup` is `bots count`. -/
def manyLib (count : Int) (obj : FunctionIO) : Lib :=
  lib [("stdin", obj)] [("robotgroup", bots count)]

/-- The record that `xfn-many` creates in group `bots` for a suffix and a colour. -/
def created (suf color : String) : DesiredResource :=
  { Name := "robot-" ++ suf
    Resource :=
      { Raw := encodeRobot
          { APIVersion := "iam.dummy.upbound.io/v1alpha1", Kind := "Robot", Name := "bots-" ++ suf,
            Spec := { ForProvider := { Color := color } }, Rest := "" } } }

/-- An observed record named `robot-` plus `suf`, holding a robot of the given colour. -/
def seen (suf color : String) : ObservedResource :=
  { Name := "robot-" ++ suf, Resource := robotRaw ("bots-" ++ suf) color }

/-- A desired record named `name`, holding a robot of that name and the given colour. -/
def wanted (name color : String) : DesiredResource :=
  { Name := name, Resource := robotRaw name color }

/-- An observed record named `name`, holding a robot of that name and the given colour. -/
def found (name color : String) : ObservedResource :=
  { Name := name, Resource := robotRaw name color }

/-- The instance in which standard input `cycle1` holds the envelope `obj1` and
standard input `cycle2` the envelope `obj2`. -/
def cycleLib (obj1 obj2 : FunctionIO) : Lib :=
  lib [("cycle1", obj1), ("cycle2", obj2)] []

/-- Reads a `Robot` the way a decoder into a typed value does: the five strings
are read as by `decodeRobot`, and content that follows them, which the type
`Robot` does not hold, is dropped. -/
def decodeLoose (raw : String) : Except String Robot :=
  match decodeField raw.toList with
  | none => .error "cannot unmarshal into Go value of type Robot"
  | some (apiVersion, t1) =>
  match decodeField t1 with
  | none => .error "cannot unmarshal into Go value of type Robot"
  | some (kind, t2) =>
  match decodeField t2 with
  | none => .error "cannot unmarshal into Go value of type Robot"
  | some (name, t3) =>
  match decodeField t3 with
  | none => .error "cannot unmarshal into Go value of type Robot"
  | some (color, t4) =>
  match decodeField t4 with
  | none => .error "cannot unmarshal into Go value of type Robot"
  | some (rest, _) =>
    .ok { APIVersion := String.mk apiVersion, Kind := String.mk kind, Name := String.mk name,
          Spec := { ForProvider := { Color := String.mk color } }, Rest := String.mk rest }

/-- The instance in which standard input `stdin` holds the envelope `obj` and both
decoders of `Robot` drop the content that the type does not hold. -/
def looseLib (obj : FunctionIO) : Lib :=
  { lib [("stdin", obj)] [] with
    yamlUnmarshalRobot := decodeLoose
    jsonUnmarshalRobot := decodeLoose }

/-- A desired record named `name` whose payload is a robot of that name and colour
followed by one more string, `extra`, which is no part of a `Robot`. -/
def extended (name color extra : String) : DesiredResource :=
  { Name := name
    Resource := { Raw := (robotRaw name color).Raw ++ String.mk (encodeField extra.toList) } }

/-- The instance of `cycleLib` in which `json.Marshal` writes the text form after a
mark `#`, which neither decoder reads. -/
def markLib (obj1 obj2 : FunctionIO) : Lib :=
  { cycleLib obj1 obj2 with
    jsonMarshalRobot := fun r => .ok ("#" ++ encodeRobot r) }

/-- The payload that `markLib` writes for a robot of the given name and colour. -/
def marked (name color : String) : RawExtension :=
  { Raw := "#" ++ (robotRaw name color).Raw }

/-- A reader of `crypto/rand` whose draws are 0 five times, then 1 five times, and
so on: the successive suffixes are `aaaaa`, `bbbbb`, ... -/
def countingSource : CryptoSource := fun i => .ok (i / 5)

/-- A reader of `crypto/rand` whose draws are all 0: every suffix is `aaaaa`. -/
def zeroSource : CryptoSource := fun _ => .ok 0

/-- The desired list of an outcome that printed an envelope. -/
def desiredOf : Outcome → Option (List DesiredResource)
  | .exit0 out => some out.Desired.Resources
  | _ => none

end Demo

end Contribfest

/-! Properties -/

namespace Contribfest

/-! Integers -/

/-- A count obtained from `GetInteger` is an `int64`. -/
theorem GetInteger_range {u : Unstructured} {path : String} {v : Int}
    (h : GetInteger u path = .ok v) :
    -9223372036854775808 ≤ v ∧ v ≤ 9223372036854775807 := by
  unfold GetInteger at h
  split at h
  · split at h
    · cases h; assumption
    · cases h
  · cases h

/-- No wrap-around within the range of `int64`. -/
theorem wrapInt_of_range {x : Int} (h1 : -9223372036854775808 ≤ x)
    (h2 : x ≤ 9223372036854775807) : wrapInt x = x := by
  unfold wrapInt; omega

namespace XfnMany

/-! The stages of `xfn-many` -/

/-- The first loop of `main` appends the observed records, converted one by one. -/
theorem observedRobots_eq (obs : List ObservedResource) (robots : List DesiredResource) :
    observedRobots obs robots = robots ++ obs.map ofObserved := by
  induction obs generalizing robots with
  | nil => simp [observedRobots]
  | cons r rest ih => simp [observedRobots, ih]

/-- A run of `xfn-many` that prints an envelope passed every stage. -/
theorem many_main_exit0 {lib : Lib} {src : CryptoSource} {prng : PRNG} {b : String} {out : FunctionIO}
    (h : main lib src prng (.ok b) = .exit0 out) :
    ∃ obj robotGroup count robots,
      lib.yamlUnmarshalEnvelope b = .ok obj ∧
      lib.yamlUnmarshalUnstructured obj.Observed.Composite.Resource.Raw = .ok robotGroup ∧
      GetInteger robotGroup "spec.count" = .ok count ∧
      addRobots lib robotGroup.GetName
        (wrapInt (wrapInt count - ((observedRobots obj.Observed.Resources []).length : Int))).toNat
        src prng (observedRobots obj.Observed.Resources []) = .ok robots ∧
      out = { obj with Desired := { obj.Desired with Resources := robots } } := by
  unfold main at h
  cases h1 : lib.yamlUnmarshalEnvelope b with
  | error e => simp [h1, orExit, Outcome.ofExcept] at h
  | ok obj =>
    cases h2 : lib.yamlUnmarshalUnstructured obj.Observed.Composite.Resource.Raw with
    | error e => simp [h1, h2, orExit, Outcome.ofExcept] at h
    | ok robotGroup =>
      cases h3 : GetInteger robotGroup "spec.count" with
      | error e => simp [h1, h2, h3, orExit, Outcome.ofExcept] at h
      | ok count =>
        cases h4 : addRobots lib robotGroup.GetName
          (wrapInt (wrapInt count - ((observedRobots obj.Observed.Resources []).length : Int))).toNat
          src prng (observedRobots obj.Observed.Resources []) with
        | error f =>
          cases f <;> simp [h1, h2, h3, h4, orExit, Outcome.ofExcept] at h
        | ok robots =>
          refine ⟨obj, robotGroup, count, robots, rfl, h2, h3, h4, ?_⟩
          simp only [h1, h2, h3, h4, orExit] at h
          split at h
          · rename_i f hf
            split at hf
            · cases hf
            · cases hf; simp [Outcome.ofExcept] at h
          · simp [Outcome.ofExcept] at h
            exact h.symm

end XfnMany

/-- A successful indexing yields an element of the list. -/
theorem index_mem {α : Type} {xs : List α} {i : Nat} {x : α} (h : index xs i = .ok x) : x ∈ xs := by
  unfold index at h
  split at h
  · rename_i y hy
    cases h
    exact List.getElem?_mem hy
  · cases h

/-- The characters generated: as many as asked, all from the character set. -/
theorem generateChars_spec (cs : List Char) :
    ∀ (n : Nat) (src : CryptoSource) (pw : List Char) (src1 : CryptoSource),
      generateChars cs n src = .ok (pw, src1) → pw.length = n ∧ ∀ c ∈ pw, c ∈ cs := by
  intro n
  induction n with
  | zero =>
    intro src pw src1 h
    simp only [generateChars] at h
    cases h
    simp
  | succ n ih =>
    intro src pw src1 h
    simp only [generateChars] at h
    split at h
    · cases h
    · split at h
      · cases h
      · split at h
        · cases h
        · rename_i c hc
          split at h
          · cases h
          · rename_i pw1 src2 hrec
            cases h
            obtain ⟨hl, hm⟩ := ih _ _ _ hrec
            refine ⟨by simp [hl], ?_⟩
            intro d hd
            rcases List.mem_cons.mp hd with rfl | hd
            · exact index_mem hc
            · exact hm d hd

namespace XfnMany

/-- A suffix has 5 characters of the alphabet. -/
theorem generateSuffix_spec {src src1 : CryptoSource} {suf : String}
    (h : generateSuffix src = .ok (suf, src1)) :
    suf.length = 5 ∧ ∀ c ∈ suf.toList, c ∈ "abcdefghijklmnopqrstuvwxyz0123456789".toList := by
  unfold generateSuffix Settings.Generate at h
  split at h
  · cases h
  · rename_i pw src2 hpw
    cases h
    obtain ⟨hl, hm⟩ := generateChars_spec _ _ _ _ _ hpw
    exact ⟨by simpa using hl, hm⟩

/-- The second loop of `main`: `n` records are appended, named after the successive
suffixes, each the JSON of a new `Robot`. -/
theorem addRobots_spec (lib : Lib) (groupName : String) :
    ∀ (n : Nat) (src : CryptoSource) (prng : PRNG) (robots out : List DesiredResource),
      addRobots lib groupName n src prng robots = .ok out →
      ∃ new, out = robots ++ new ∧ new.length = n ∧
        new.map (fun d => d.Name) = (suffixes n src).map (fun s => "robot-" ++ s) ∧
        ∀ d ∈ new, ∃ suf color raw,
          suf.length = 5 ∧
          (∀ c ∈ suf.toList, c ∈ "abcdefghijklmnopqrstuvwxyz0123456789".toList) ∧
          color ∈ Colors ∧
          lib.jsonMarshalRobot
            { APIVersion := lib.RobotGroupVersionKind.apiVersion,
              Kind := lib.RobotGroupVersionKind.Kind,
              Name := groupName ++ "-" ++ suf,
              Spec := { ForProvider := { Color := color } },
              Rest := "" } = .ok raw ∧
          d = { Name := "robot-" ++ suf, Resource := { Raw := raw } } := by
  intro n
  induction n with
  | zero =>
    intro src prng robots out h
    simp only [addRobots] at h
    cases h
    exact ⟨[], by simp, rfl, by simp [suffixes], by simp⟩
  | succ n ih =>
    intro src prng robots out h
    simp only [addRobots] at h
    split at h
    · cases h
    · cases h
    · rename_i suf src1 hsuf
      split at h
      · cases h
      · rename_i i hi
        split at h
        · cases h
        · rename_i color hcolor
          split at h
          · cases h
          · rename_i raw hraw
            obtain ⟨new, hout, hlen, hnames, hall⟩ := ih _ _ _ _ h
            refine ⟨{ Name := "robot-" ++ suf, Resource := { Raw := raw } } :: new, ?_, ?_, ?_, ?_⟩
            · simp [hout]
            · simp [hlen]
            · simp [suffixes, hsuf, hnames]
            · intro d hd
              rcases List.mem_cons.mp hd with rfl | hd
              · obtain ⟨h5, hcs⟩ := generateSuffix_spec hsuf
                exact ⟨suf, color, raw, h5, hcs, index_mem hcolor, hraw, rfl⟩
              · exact hall d hd

end XfnMany

namespace XfnRandom

/-! The stages of `xfn-random` -/

/-- A run of `xfn-random` that prints an envelope passed every stage. -/
theorem random_main_exit0 {lib : Lib} {prng : PRNG} {b : String} {out : FunctionIO}
    (h : main lib prng (.ok b) = .exit0 out) :
    ∃ obj colors resources,
      lib.yamlUnmarshalEnvelope b = .ok obj ∧
      observedColors lib obj.Observed.Resources (fun _ => "") = .ok colors ∧
      mergeDesired lib colors obj.Desired.Resources prng = .ok resources ∧
      out = { obj with Desired := { obj.Desired with Resources := resources } } := by
  unfold main at h
  cases h1 : lib.yamlUnmarshalEnvelope b with
  | error e => simp [h1, orExit, Outcome.ofExcept] at h
  | ok obj =>
    cases h2 : observedColors lib obj.Observed.Resources (fun _ => "") with
    | error f => cases f <;> simp [h1, h2, orExit, Outcome.ofExcept] at h
    | ok colors =>
      cases h3 : mergeDesired lib colors obj.Desired.Resources prng with
      | error f => cases f <;> simp [h1, h2, h3, orExit, Outcome.ofExcept] at h
      | ok resources =>
        refine ⟨obj, colors, resources, rfl, h2, h3, ?_⟩
        simp only [h1, h2, h3, orExit] at h
        split at h
        · rename_i f hf
          split at hf
          · cases hf
          · cases hf; simp [Outcome.ofExcept] at h
        · simp [Outcome.ofExcept] at h
          exact h.symm

/-- What `main` computes once the envelope is decoded, the colours are collected and the
entries are merged. -/
theorem main_of_stages {lib : Lib} {prng : PRNG} {b : String} {obj : FunctionIO}
    {colors : ColorMap} {resources : List DesiredResource} {text : String}
    (h1 : lib.yamlUnmarshalEnvelope b = .ok obj)
    (h2 : observedColors lib obj.Observed.Resources (fun _ => "") = .ok colors)
    (h3 : mergeDesired lib colors obj.Desired.Resources prng = .ok resources)
    (h4 : lib.yamlMarshalEnvelope
      { obj with Desired := { obj.Desired with Resources := resources } } = .ok text) :
    main lib prng (.ok b) =
      .exit0 { obj with Desired := { obj.Desired with Resources := resources } } := by
  simp [main, h1, h2, h3, h4, orExit, Outcome.ofExcept]

/-- The first loop fails on an observed payload that cannot be decoded. -/
theorem observedColors_error (lib : Lib) :
    ∀ (obs : List ObservedResource) (colors : ColorMap),
      (∃ o ∈ obs, ∃ e, lib.jsonUnmarshalRobot o.Resource.Raw = .error e) →
      ∃ msg, observedColors lib obs colors = .error (.error msg) := by
  intro obs
  induction obs with
  | nil => intro colors h; simp at h
  | cons o rest ih =>
    intro colors h
    simp only [observedColors]
    cases hd : lib.jsonUnmarshalRobot o.Resource.Raw with
    | error e => exact ⟨"failed to unmarshal observed resource: " ++ e, by simp only [orExit]⟩
    | ok r =>
      simp only [orExit]
      apply ih
      obtain ⟨o1, ho1, e, he⟩ := h
      rcases List.mem_cons.mp ho1 with rfl | ho1
      · rw [hd] at he; cases he
      · exact ⟨o1, ho1, e, he⟩

/-- The first loop succeeds when every observed payload can be decoded. -/
theorem observedColors_total (lib : Lib) :
    ∀ (obs : List ObservedResource) (colors : ColorMap),
      (∀ o ∈ obs, ∃ r, lib.jsonUnmarshalRobot o.Resource.Raw = .ok r) →
      ∃ out, observedColors lib obs colors = .ok out := by
  intro obs
  induction obs with
  | nil => intro colors _; exact ⟨colors, rfl⟩
  | cons o rest ih =>
    intro colors h
    obtain ⟨r, hr⟩ := h o (List.mem_cons_self _ _)
    simp only [observedColors, hr, orExit]
    exact ih _ (fun o1 ho1 => h o1 (List.mem_cons_of_mem _ ho1))

/-- A name whose observed records all have the empty colour keeps the empty colour. -/
theorem observedColors_absent (lib : Lib) (name : String) :
    ∀ (obs : List ObservedResource) (colors out : ColorMap),
      observedColors lib obs colors = .ok out →
      colors name = "" →
      (∀ o ∈ obs, o.Name = name → ∀ r, lib.jsonUnmarshalRobot o.Resource.Raw = .ok r →
        r.Spec.ForProvider.Color = "") →
      out name = "" := by
  intro obs
  induction obs with
  | nil =>
    intro colors out h h0 _
    simp only [observedColors] at h
    cases h; exact h0
  | cons o rest ih =>
    intro colors out h h0 hall
    simp only [observedColors] at h
    cases hd : lib.jsonUnmarshalRobot o.Resource.Raw with
    | error e => simp [hd, orExit] at h
    | ok r =>
      simp only [hd, orExit] at h
      refine ih _ _ h ?_ (fun o1 ho1 => hall o1 (List.mem_cons_of_mem _ ho1))
      unfold ColorMap.set
      split
      · rename_i hn
        exact hall o (List.mem_cons_self _ _) hn.symm r hd
      · exact h0

/-- The first loop leaves the entry of a name that is not observed as it was. -/
theorem observedColors_keep (lib : Lib) (name : String) :
    ∀ (obs : List ObservedResource) (colors out : ColorMap),
      observedColors lib obs colors = .ok out →
      name ∉ obs.map (fun o => o.Name) →
      out name = colors name := by
  intro obs
  induction obs with
  | nil =>
    intro colors out h _
    simp only [observedColors] at h
    cases h; rfl
  | cons o rest ih =>
    intro colors out h hn
    simp only [observedColors] at h
    cases hd : lib.jsonUnmarshalRobot o.Resource.Raw with
    | error e => simp [hd, orExit] at h
    | ok r =>
      simp only [hd, orExit] at h
      simp only [List.map_cons, List.mem_cons, not_or] at hn
      rw [ih _ _ h hn.2]
      simp [ColorMap.set, hn.1]

/-- With distinct observed names, the map holds the colour of each observed record. -/
theorem observedColors_present (lib : Lib) :
    ∀ (obs : List ObservedResource) (colors out : ColorMap),
      observedColors lib obs colors = .ok out →
      (obs.map (fun o => o.Name)).Nodup →
      ∀ o ∈ obs, ∀ r, lib.jsonUnmarshalRobot o.Resource.Raw = .ok r →
        out o.Name = r.Spec.ForProvider.Color := by
  intro obs
  induction obs with
  | nil => intro colors out _ _ o ho; simp at ho
  | cons o rest ih =>
    intro colors out h hnd o1 ho1 r1 hr1
    simp only [observedColors] at h
    cases hd : lib.jsonUnmarshalRobot o.Resource.Raw with
    | error e => simp [hd, orExit] at h
    | ok r =>
      simp only [hd, orExit] at h
      simp only [List.map_cons, List.nodup_cons] at hnd
      rcases List.mem_cons.mp ho1 with rfl | ho1
      · rw [hd] at hr1; cases hr1
        rw [observedColors_keep lib _ _ _ _ h hnd.1]
        simp [ColorMap.set]
      · exact ih _ _ h hnd.2 o1 ho1 r1 hr1

/-- No colour of `Colors` is the empty string. -/
theorem Colors_nonempty : ∀ c ∈ Colors, c ≠ "" := by decide

/-- The expression `Colors[rand.Intn(len(Colors))]` never panics. -/
theorem pick_ok (raw : Nat) :
    ∃ c, Intn raw Colors.length = .ok (raw % Colors.length) ∧
      index Colors (raw % Colors.length) = .ok c ∧ c ∈ Colors := by
  have hlt : raw % Colors.length < Colors.length := Nat.mod_lt _ (by decide)
  refine ⟨Colors[raw % Colors.length], ?_, ?_, List.getElem_mem _⟩
  · simp [Intn, Colors]
  · simp only [index, List.getElem?_eq_getElem hlt]

/-- The second loop, entry by entry. -/
theorem mergeDesired_spec (lib : Lib) (colors : ColorMap) :
    ∀ (des : List DesiredResource) (prng : PRNG) (out : List DesiredResource),
      mergeDesired lib colors des prng = .ok out →
      out.length = des.length ∧
      ∀ (i : Nat) (d : DesiredResource), des[i]? = some d →
        ∃ (r : Robot) (color raw : String),
          lib.yamlUnmarshalRobot d.Resource.Raw = .ok r ∧
          lib.jsonMarshalRobot (r.setColor color) = .ok raw ∧
          out[i]? = some { d with Resource := { Raw := raw } } ∧
          (colors d.Name ≠ "" → color = colors d.Name) ∧
          (colors d.Name = "" →
            ∃ j, prng j % Colors.length < Colors.length ∧
              Colors[prng j % Colors.length]? = some color) := by
  intro des
  induction des with
  | nil =>
    intro prng out h
    simp only [mergeDesired] at h
    cases h
    simp
  | cons d rest ih =>
    intro prng out h
    simp only [mergeDesired] at h
    cases hr : lib.yamlUnmarshalRobot d.Resource.Raw with
    | error e => simp [hr, orExit] at h
    | ok r =>
      simp only [hr, orExit] at h
      by_cases hc : colors d.Name = ""
      · obtain ⟨c, h1, h2, h3⟩ := pick_ok (prng 0)
        simp only [hc, ne_eq, not_true_eq_false, if_false, h1, h2] at h
        cases hm : lib.jsonMarshalRobot (r.setColor c) with
        | error e => simp [hm] at h
        | ok raw =>
          simp only [hm] at h
          cases hrec : mergeDesired lib colors rest (advance prng) with
          | error f => simp [hrec] at h
          | ok out1 =>
            simp only [hrec] at h
            cases h
            obtain ⟨hlen, hall⟩ := ih _ _ hrec
            refine ⟨by simp [hlen], ?_⟩
            intro i d1 hi
            cases i with
            | zero =>
              simp only [List.getElem?_cons_zero, Option.some.injEq] at hi
              subst hi
              refine ⟨r, c, raw, hr, hm, by simp, fun h => absurd hc h, fun _ => ⟨0, ?_, ?_⟩⟩
              · exact Nat.mod_lt _ (by decide)
              · simp only [index] at h2
                split at h2
                · rename_i x hx
                  cases h2; exact hx
                · cases h2
            | succ i =>
              simp only [List.getElem?_cons_succ] at hi
              obtain ⟨r1, c1, raw1, e1, e2, e3, e4, e5⟩ := hall i d1 hi
              refine ⟨r1, c1, raw1, e1, e2, by simpa using e3, e4, fun h0 => ?_⟩
              obtain ⟨j, hj1, hj2⟩ := e5 h0
              exact ⟨j + 1, hj1, hj2⟩
      · simp only [hc, ne_eq, not_false_eq_true, if_true] at h
        cases hm : lib.jsonMarshalRobot (r.setColor (colors d.Name)) with
        | error e => simp [hm] at h
        | ok raw =>
          simp only [hm] at h
          cases hrec : mergeDesired lib colors rest prng with
          | error f => simp [hrec] at h
          | ok out1 =>
            simp only [hrec] at h
            cases h
            obtain ⟨hlen, hall⟩ := ih _ _ hrec
            refine ⟨by simp [hlen], ?_⟩
            intro i d1 hi
            cases i with
            | zero =>
              simp only [List.getElem?_cons_zero, Option.some.injEq] at hi
              subst hi
              exact ⟨r, colors d.Name, raw, hr, hm, by simp, fun _ => rfl, fun h => absurd h hc⟩
            | succ i =>
              simp only [List.getElem?_cons_succ] at hi
              obtain ⟨r1, c1, raw1, e1, e2, e3, e4, e5⟩ := hall i d1 hi
              exact ⟨r1, c1, raw1, e1, e2, by simpa using e3, e4, e5⟩

/-- The second loop never panics. -/
theorem mergeDesired_no_panic (lib : Lib) (colors : ColorMap) :
    ∀ (des : List DesiredResource) (prng : PRNG) (msg : String),
      mergeDesired lib colors des prng ≠ .error (.panic msg) := by
  intro des
  induction des with
  | nil => intro prng msg h; simp [mergeDesired] at h
  | cons d rest ih =>
    intro prng msg h
    simp only [mergeDesired] at h
    cases hr : lib.yamlUnmarshalRobot d.Resource.Raw with
    | error e => simp [hr, orExit] at h
    | ok r =>
      simp only [hr, orExit] at h
      by_cases hc : colors d.Name = ""
      · obtain ⟨c, h1, h2, h3⟩ := pick_ok (prng 0)
        simp only [hc, ne_eq, not_true_eq_false, if_false, h1, h2] at h
        cases hm : lib.jsonMarshalRobot (r.setColor c) with
        | error e => simp [hm] at h
        | ok raw =>
          simp only [hm] at h
          cases hrec : mergeDesired lib colors rest (advance prng) with
          | error f =>
            simp only [hrec] at h
            cases h
            exact ih _ _ hrec
          | ok out1 => simp [hrec] at h
      · simp only [hc, ne_eq, not_false_eq_true, if_true] at h
        cases hm : lib.jsonMarshalRobot (r.setColor (colors d.Name)) with
        | error e => simp [hm] at h
        | ok raw =>
          simp only [hm] at h
          cases hrec : mergeDesired lib colors rest prng with
          | error f =>
            simp only [hrec] at h
            cases h
            exact ih _ _ hrec
          | ok out1 => simp [hrec] at h

/-- The first loop never panics. -/
theorem observedColors_no_panic (lib : Lib) :
    ∀ (obs : List ObservedResource) (colors : ColorMap) (msg : String),
      observedColors lib obs colors ≠ .error (.panic msg) := by
  intro obs
  induction obs with
  | nil => intro colors msg h; simp [observedColors] at h
  | cons o rest ih =>
    intro colors msg h
    simp only [observedColors] at h
    cases hd : lib.jsonUnmarshalRobot o.Resource.Raw with
    | error e => simp [hd, orExit] at h
    | ok r =>
      simp only [hd, orExit] at h
      exact ih _ _ h

/-- Entries that already are the JSON of their `Robot` with the recorded non-empty colour
are rewritten into themselves. -/
theorem mergeDesired_stable (lib : Lib) (colors : ColorMap) :
    ∀ (des : List DesiredResource) (prng : PRNG),
      (∀ e ∈ des, ∃ r, lib.yamlUnmarshalRobot e.Resource.Raw = .ok r ∧ colors e.Name ≠ "" ∧
        lib.jsonMarshalRobot (r.setColor (colors e.Name)) = .ok e.Resource.Raw) →
      mergeDesired lib colors des prng = .ok des := by
  intro des
  induction des with
  | nil => intro prng _; rfl
  | cons d rest ih =>
    intro prng h
    obtain ⟨r, h1, h2, h3⟩ := h d (List.mem_cons_self _ _)
    have hrec := ih prng (fun e he => h e (List.mem_cons_of_mem _ he))
    simp [mergeDesired, h1, h2, h3, hrec, orExit]

/-- The second loop keeps the record names, in order. -/
theorem mergeDesired_names (lib : Lib) (colors : ColorMap) (des : List DesiredResource)
    (prng : PRNG) (out : List DesiredResource)
    (h : mergeDesired lib colors des prng = .ok out) :
    out.map (fun d => d.Name) = des.map (fun d => d.Name) := by
  obtain ⟨hlen, hall⟩ := mergeDesired_spec _ _ _ _ _ h
  apply List.ext_getElem?
  intro i
  simp only [List.getElem?_map]
  cases hd : des[i]? with
  | none =>
    have hi : des.length ≤ i := List.getElem?_eq_none_iff.mp hd
    have hnone : out[i]? = none := List.getElem?_eq_none_iff.mpr (by omega)
    simp [hnone]
  | some d =>
    obtain ⟨r, color, raw, -, -, h3, -⟩ := hall i d hd
    simp [h3]

/-- Every entry that the merge loop wrote is the JSON of a `Robot` of non-empty colour. -/
theorem mergeDesired_colored (lib : Lib) (colors : ColorMap) (des : List DesiredResource)
    (prng : PRNG) (out : List DesiredResource)
    (h : mergeDesired lib colors des prng = .ok out) :
    ∀ e ∈ out, ∃ (r : Robot) (c : String), c ≠ "" ∧
      lib.jsonMarshalRobot (r.setColor c) = .ok e.Resource.Raw := by
  obtain ⟨hlen, hall⟩ := mergeDesired_spec _ _ _ _ _ h
  intro e he
  obtain ⟨i, hi⟩ := List.mem_iff_getElem?.mp he
  have hlt : i < des.length := by
    have : i < out.length := by
      by_contra hcon
      rw [List.getElem?_eq_none_iff.mpr (by omega)] at hi
      cases hi
    omega
  obtain ⟨r, color, raw, -, h2, h3, h4, h5⟩ := hall i des[i] (List.getElem?_eq_getElem hlt)
  rw [hi] at h3
  cases h3
  refine ⟨r, color, ?_, h2⟩
  by_cases hc : colors des[i].Name = ""
  · obtain ⟨j, -, hj⟩ := h5 hc
    exact Colors_nonempty color (List.getElem?_mem hj)
  · rw [h4 hc]; exact hc

end XfnRandom

namespace Demo

/-! The text form of the concrete instance reads back -/

/-- Reading back one string of the text form. -/
theorem decodeField_encodeField (cs tail : List Char) :
    decodeField (encodeField cs ++ tail) = some (cs, tail) := by
  induction cs with
  | nil => cases tail <;> simp [encodeField, decodeField]
  | cons c cs ih =>
    have h : encodeField (c :: cs) ++ tail = '.' :: c :: (encodeField cs ++ tail) := rfl
    rw [h]
    simp only [decodeField, ih]
    simp

/-- Reading back the text form of a `Robot`. -/
theorem decodeRobot_encodeRobot (r : Robot) : decodeRobot (encodeRobot r) = .ok r := by
  obtain ⟨a, k, n, ⟨⟨c⟩⟩, t⟩ := r
  unfold decodeRobot encodeRobot
  have h5 : decodeField (encodeField t.toList) = some (t.toList, []) := by
    have := decodeField_encodeField t.toList []
    simpa using this
  simp only [String.toList, decodeField_encodeField]
  simp only [String.toList] at h5
  simp only [h5]

end Demo

namespace XfnMany

/-! Claims about `xfn-many` -/

/-- Different suffixes give different record names. -/
theorem robot_name_injective : Function.Injective (fun s : String => "robot-" ++ s) := by
  intro a b h
  have h1 : ("robot-" ++ a).data = ("robot-" ++ b).data := congrArg String.data h
  simp only [String.data_append] at h1
  exact String.ext (List.append_cancel_left h1)

/-- C1 (amended): for every target count `T = spec.count ≥ 0` and every input
envelope whose `observed.resources` list has `O` entries (at most `2^63`, as
any Go slice), and for every outcome of the two random sources, the
`desired.resources` list written to the output has exactly `max(T, O)` entries,
whatever the input `desired.resources` list held. -/
theorem main_desired_length (lib : Lib) (src : CryptoSource) (prng : PRNG) (b : String)
    (obj : FunctionIO) (robotGroup : Unstructured) (T : Int) (out : FunctionIO)
    (hobj : lib.yamlUnmarshalEnvelope b = .ok obj)
    (hgroup : lib.yamlUnmarshalUnstructured obj.Observed.Composite.Resource.Raw = .ok robotGroup)
    (hT : GetInteger robotGroup "spec.count" = .ok T)
    (h0 : 0 ≤ T)
    (hlen : (obj.Observed.Resources.length : Int) ≤ 9223372036854775808)
    (hout : main lib src prng (.ok b) = .exit0 out) :
    (out.Desired.Resources.length : Int) = max T (obj.Observed.Resources.length : Int) := by
  obtain ⟨obj1, g1, count, robots, e1, e2, e3, e4, e5⟩ := many_main_exit0 hout
  rw [hobj] at e1; cases e1
  rw [hgroup] at e2; cases e2
  rw [hT] at e3; cases e3
  obtain ⟨new, hnew, hnlen, -, -⟩ := addRobots_spec _ _ _ _ _ _ _ e4
  obtain ⟨hlo, hhi⟩ := GetInteger_range hT
  subst e5
  simp only [hnew, List.length_append, hnlen, observedRobots_eq, List.nil_append,
    List.length_map, wrapInt_of_range hlo hhi]
  rw [wrapInt_of_range (by omega) (by omega)]
  omega

/-- C1 (as stated) fails: with `spec.count = 0`, no observed resource and one
entry in the input `desired.resources` list (`D = 1`), the output list is
empty, not of length `max(0, 1) = 1`. -/
theorem main_desired_length_counterexample :
    (Demo.manyLib 0 (Demo.envelope [] [Demo.created "x" "red"])).yamlUnmarshalEnvelope "stdin"
      = .ok (Demo.envelope [] [Demo.created "x" "red"]) ∧
    (Demo.envelope [] [Demo.created "x" "red"]).Desired.Resources.length = 1 ∧
    GetInteger (Demo.bots 0) "spec.count" = .ok 0 ∧
    main (Demo.manyLib 0 (Demo.envelope [] [Demo.created "x" "red"])) Demo.zeroSource
      (fun _ => 0) (.ok "stdin") = .exit0 (Demo.envelope [] []) ∧
    (Demo.envelope [] []).Desired.Resources.length ≠ max 0 1 := by
  refine ⟨rfl, rfl, rfl, rfl, by decide⟩

/-- An instance of C1 (amended): `spec.count = 2`, nothing observed, two records created. -/
theorem main_desired_length_witness :
    (((Demo.envelope [] [Demo.created "aaaaa" "red", Demo.created "bbbbb" "red"]).Desired.Resources.length : Nat) : Int)
      = max 2 ((([] : List ObservedResource).length : Nat) : Int) :=
  main_desired_length (Demo.manyLib 2 (Demo.envelope [] [])) Demo.countingSource (fun _ => 0)
    "stdin" (Demo.envelope [] []) (Demo.bots 2) 2
    (Demo.envelope [] [Demo.created "aaaaa" "red", Demo.created "bbbbb" "red"])
    rfl rfl rfl (by decide) (by decide) rfl

/-- C2 (amended): the Scaling Reconciler only appends to the observed list. For
every input envelope, the entries of the input `observed.resources` list appear
(same name, same payload, same order) as a prefix of the output
`desired.resources` list; and when `observed.resources` has at least
`spec.count` entries (the subtraction not overflowing) the output list is
exactly the observed entries. The input `desired.resources` list is not read. -/
theorem main_appends_to_observed (lib : Lib) (src : CryptoSource) (prng : PRNG) (b : String)
    (obj out : FunctionIO)
    (hobj : lib.yamlUnmarshalEnvelope b = .ok obj)
    (hout : main lib src prng (.ok b) = .exit0 out) :
    (∃ new, out.Desired.Resources = obj.Observed.Resources.map ofObserved ++ new) ∧
    (∀ (robotGroup : Unstructured) (T : Int),
      lib.yamlUnmarshalUnstructured obj.Observed.Composite.Resource.Raw = .ok robotGroup →
      GetInteger robotGroup "spec.count" = .ok T →
      T ≤ (obj.Observed.Resources.length : Int) →
      -9223372036854775808 ≤ T - (obj.Observed.Resources.length : Int) →
      out.Desired.Resources = obj.Observed.Resources.map ofObserved) := by
  obtain ⟨obj1, g1, count, robots, e1, e2, e3, e4, e5⟩ := many_main_exit0 hout
  rw [hobj] at e1; cases e1
  obtain ⟨new, hnew, hnlen, -, -⟩ := addRobots_spec _ _ _ _ _ _ _ e4
  subst e5
  simp only [observedRobots_eq, List.nil_append, List.length_map] at hnew hnlen
  refine ⟨⟨new, hnew⟩, ?_⟩
  intro robotGroup T hgroup hT hle hno
  rw [hgroup] at e2; cases e2
  rw [hT] at e3; cases e3
  obtain ⟨hlo, hhi⟩ := GetInteger_range hT
  rw [wrapInt_of_range hlo hhi, wrapInt_of_range hno (by omega)] at hnlen
  have h0 : new.length = 0 := by omega
  have hnil : new = [] := List.length_eq_zero.mp h0
  simp only [hnew, hnil, List.append_nil]

/-- C2 (as stated) fails: with `spec.count = 1`, one observed resource `robot-o`
and the input `desired.resources` list `[robot-x]` (already `spec.count`
entries), the output list is `[robot-o]`: the input desired entry is neither
kept as a prefix nor is the output equal to the input list. -/
theorem main_appends_to_observed_counterexample :
    (Demo.manyLib 1 (Demo.envelope [Demo.seen "o" "blue"]
        [Demo.created "x" "red"])).yamlUnmarshalEnvelope "stdin"
      = .ok (Demo.envelope [Demo.seen "o" "blue"] [Demo.created "x" "red"]) ∧
    Demo.desiredOf (main (Demo.manyLib 1 (Demo.envelope [Demo.seen "o" "blue"]
        [Demo.created "x" "red"])) Demo.zeroSource (fun _ => 0) (.ok "stdin"))
      = some [ofObserved (Demo.seen "o" "blue")] ∧
    ¬ (∃ new, [ofObserved (Demo.seen "o" "blue")] = [Demo.created "x" "red"] ++ new) := by
  refine ⟨rfl, rfl, ?_⟩
  rintro ⟨new, h⟩
  have h1 := congrArg (fun l => l.map (fun d => d.Name)) h
  simp [Demo.created, Demo.seen, ofObserved] at h1

/-- An instance of C2 (amended): `spec.count = 1` and one observed record, which alone
makes up the output list. -/
theorem main_appends_to_observed_witness :
    (∃ new, (Demo.envelope [Demo.seen "o" "blue"]
        [ofObserved (Demo.seen "o" "blue")]).Desired.Resources
      = (Demo.envelope [Demo.seen "o" "blue"] []).Observed.Resources.map ofObserved ++ new) ∧
    (∀ (robotGroup : Unstructured) (T : Int),
      (Demo.manyLib 1 (Demo.envelope [Demo.seen "o" "blue"] [])).yamlUnmarshalUnstructured
        (Demo.envelope [Demo.seen "o" "blue"] []).Observed.Composite.Resource.Raw
          = .ok robotGroup →
      GetInteger robotGroup "spec.count" = .ok T →
      T ≤ ((Demo.envelope [Demo.seen "o" "blue"] []).Observed.Resources.length : Int) →
      -9223372036854775808 ≤
        T - ((Demo.envelope [Demo.seen "o" "blue"] []).Observed.Resources.length : Int) →
      (Demo.envelope [Demo.seen "o" "blue"] [ofObserved (Demo.seen "o" "blue")]).Desired.Resources
      = (Demo.envelope [Demo.seen "o" "blue"] []).Observed.Resources.map ofObserved) :=
  main_appends_to_observed
    (Demo.manyLib 1 (Demo.envelope [Demo.seen "o" "blue"] []))
    Demo.zeroSource (fun _ => 0) "stdin"
    (Demo.envelope [Demo.seen "o" "blue"] [])
    (Demo.envelope [Demo.seen "o" "blue"] [ofObserved (Demo.seen "o" "blue")])
    rfl rfl

/-- C3 (amended): the output names are pairwise distinct whenever nothing collides.
For every input envelope whose observed record names are pairwise distinct, if
the suffixes returned by `generateSuffix` during the run are pairwise distinct
and no observed record is named `robot-` followed by one of them, then the
record names in the output `desired.resources` list are pairwise distinct. The
program itself performs no uniqueness check. -/
theorem main_names_distinct (lib : Lib) (src : CryptoSource) (prng : PRNG) (b : String)
    (obj out : FunctionIO)
    (hobj : lib.yamlUnmarshalEnvelope b = .ok obj)
    (hout : main lib src prng (.ok b) = .exit0 out)
    (hobs : (obj.Observed.Resources.map (fun o => o.Name)).Nodup)
    (hsuf : (suffixes (out.Desired.Resources.length - obj.Observed.Resources.length) src).Nodup)
    (hfresh : ∀ s ∈ suffixes (out.Desired.Resources.length - obj.Observed.Resources.length) src,
      "robot-" ++ s ∉ obj.Observed.Resources.map (fun o => o.Name)) :
    (out.Desired.Resources.map (fun d => d.Name)).Nodup := by
  obtain ⟨obj1, g1, count, robots, e1, e2, e3, e4, e5⟩ := many_main_exit0 hout
  rw [hobj] at e1; cases e1
  obtain ⟨new, hnew, hnlen, hnames, -⟩ := addRobots_spec _ _ _ _ _ _ _ e4
  subst e5
  simp only [observedRobots_eq, List.nil_append, List.length_map] at hnew hnlen hnames
  have hcount : robots.length - obj.Observed.Resources.length = new.length := by
    simp [hnew]
  simp only [hcount, hnlen] at hsuf hfresh
  have hmap : (obj.Observed.Resources.map ofObserved).map (fun d => d.Name)
      = obj.Observed.Resources.map (fun o => o.Name) := by
    simp [ofObserved, Function.comp_def]
  simp only [hnew, List.map_append, hmap, hnames]
  refine List.Nodup.append hobs (hsuf.map robot_name_injective) ?_
  intro name h1 h2
  obtain ⟨s, hs, rfl⟩ := List.mem_map.mp h2
  exact hfresh s hs h1

/-- C3 (as stated) fails: with `spec.count = 2`, nothing observed, and
`generateSuffix` returning `aaaaa` twice, both output records are named
`robot-aaaaa`. -/
theorem main_names_distinct_counterexample :
    suffixes 2 Demo.zeroSource = ["aaaaa", "aaaaa"] ∧
    Demo.desiredOf (main (Demo.manyLib 2 (Demo.envelope [] [])) Demo.zeroSource (fun _ => 0)
      (.ok "stdin")) = some [Demo.created "aaaaa" "red", Demo.created "aaaaa" "red"] ∧
    ¬ ([Demo.created "aaaaa" "red", Demo.created "aaaaa" "red"].map (fun d => d.Name)).Nodup := by
  refine ⟨rfl, rfl, by decide⟩

/-- An instance of C3 (amended): one observed record and the two distinct suffixes
`aaaaa` and `bbbbb`. -/
theorem main_names_distinct_witness :
    ((Demo.envelope [Demo.seen "o" "blue"]
      [ofObserved (Demo.seen "o" "blue"), Demo.created "aaaaa" "red",
        Demo.created "bbbbb" "red"]).Desired.Resources.map (fun d => d.Name)).Nodup :=
  main_names_distinct (Demo.manyLib 3 (Demo.envelope [Demo.seen "o" "blue"] []))
    Demo.countingSource (fun _ => 0) "stdin" (Demo.envelope [Demo.seen "o" "blue"] [])
    (Demo.envelope [Demo.seen "o" "blue"]
      [ofObserved (Demo.seen "o" "blue"), Demo.created "aaaaa" "red", Demo.created "bbbbb" "red"])
    rfl rfl (by decide) (by decide) (by decide)

/-- C9: shape of every child created by the Scaling Reconciler. Every suffix
returned by `generateSuffix` has exactly 5 characters, all from the alphabet
`a-z0-9`; and every record of the output `desired.resources` list after the
observed ones is, for such a suffix `s` and a colour of `Colors`, the record
with key `robot-s` whose payload is the JSON of the `Robot` named `P-s` (`P` the
parent name) of that colour and of the Robot kind. -/
theorem main_created_shape (lib : Lib) (src : CryptoSource) (prng : PRNG) (b : String)
    (obj : FunctionIO) (robotGroup : Unstructured) (out : FunctionIO)
    (hobj : lib.yamlUnmarshalEnvelope b = .ok obj)
    (hgroup : lib.yamlUnmarshalUnstructured obj.Observed.Composite.Resource.Raw = .ok robotGroup)
    (hout : main lib src prng (.ok b) = .exit0 out) :
    (∀ (src0 src1 : CryptoSource) (s : String), generateSuffix src0 = .ok (s, src1) →
      s.length = 5 ∧ ∀ c ∈ s.toList, c ∈ "abcdefghijklmnopqrstuvwxyz0123456789".toList) ∧
    ∀ d ∈ out.Desired.Resources.drop obj.Observed.Resources.length,
      ∃ (s color raw : String),
        s.length = 5 ∧
        (∀ c ∈ s.toList, c ∈ "abcdefghijklmnopqrstuvwxyz0123456789".toList) ∧
        color ∈ Colors ∧
        lib.jsonMarshalRobot
          { APIVersion := lib.RobotGroupVersionKind.apiVersion,
            Kind := lib.RobotGroupVersionKind.Kind,
            Name := robotGroup.GetName ++ "-" ++ s,
            Spec := { ForProvider := { Color := color } },
            Rest := "" } = .ok raw ∧
        d = { Name := "robot-" ++ s, Resource := { Raw := raw } } := by
  refine ⟨fun src0 src1 s h => generateSuffix_spec h, ?_⟩
  obtain ⟨obj1, g1, count, robots, e1, e2, e3, e4, e5⟩ := many_main_exit0 hout
  rw [hobj] at e1; cases e1
  rw [hgroup] at e2; cases e2
  obtain ⟨new, hnew, -, -, hall⟩ := addRobots_spec _ _ _ _ _ _ _ e4
  subst e5
  simp only [observedRobots_eq, List.nil_append] at hnew
  have hdrop : robots.drop obj.Observed.Resources.length = new := by
    rw [hnew]
    have hl : obj.Observed.Resources.length = (obj.Observed.Resources.map ofObserved).length := by
      simp
    rw [hl, List.drop_left]
  simp only [hdrop]
  exact hall

/-- An instance of C9: one observed record and one record created with suffix `aaaaa`. -/
theorem main_created_shape_witness :
    (∀ (src0 src1 : CryptoSource) (s : String), generateSuffix src0 = .ok (s, src1) →
      s.length = 5 ∧ ∀ c ∈ s.toList, c ∈ "abcdefghijklmnopqrstuvwxyz0123456789".toList) ∧
    ∀ d ∈ (Demo.envelope [Demo.seen "o" "blue"]
        [ofObserved (Demo.seen "o" "blue"),
          Demo.created "aaaaa" "green"]).Desired.Resources.drop
            (Demo.envelope [Demo.seen "o" "blue"] []).Observed.Resources.length,
      ∃ (s color raw : String),
        s.length = 5 ∧
        (∀ c ∈ s.toList, c ∈ "abcdefghijklmnopqrstuvwxyz0123456789".toList) ∧
        color ∈ Colors ∧
        (Demo.manyLib 2 (Demo.envelope [Demo.seen "o" "blue"] [])).jsonMarshalRobot
          { APIVersion :=
              (Demo.manyLib 2 (Demo.envelope [Demo.seen "o" "blue"]
                [])).RobotGroupVersionKind.apiVersion,
            Kind := (Demo.manyLib 2 (Demo.envelope [Demo.seen "o" "blue"]
                [])).RobotGroupVersionKind.Kind,
            Name := (Demo.bots 2).GetName ++ "-" ++ s,
            Spec := { ForProvider := { Color := color } },
            Rest := "" } = .ok raw ∧
        d = { Name := "robot-" ++ s, Resource := { Raw := raw } } :=
  main_created_shape (Demo.manyLib 2 (Demo.envelope [Demo.seen "o" "blue"] []))
    Demo.zeroSource (fun _ => 1) "stdin" (Demo.envelope [Demo.seen "o" "blue"] [])
    (Demo.bots 2)
    (Demo.envelope [Demo.seen "o" "blue"]
      [ofObserved (Demo.seen "o" "blue"), Demo.created "aaaaa" "green"])
    rfl rfl rfl

/-- C8 (as stated) fails for the Scaling Reconciler: on an envelope whose only
observed payload is no `Robot` at all, `xfn-many` exits with code 0 and prints
an envelope carrying that payload. -/
theorem main_malformed_observed_counterexample :
    (Demo.lib [] []).jsonUnmarshalRobot "garbage"
      = .error "cannot unmarshal into Go value of type Robot" ∧
    (Demo.lib [] []).yamlUnmarshalRobot "garbage"
      = .error "cannot unmarshal into Go value of type Robot" ∧
    main (Demo.manyLib 1 (Demo.envelope
        [{ Name := "robot-bad", Resource := { Raw := "garbage" } }] []))
      Demo.zeroSource (fun _ => 0) (.ok "stdin")
      = .exit0 (Demo.envelope [{ Name := "robot-bad", Resource := { Raw := "garbage" } }]
          [{ Name := "robot-bad", Resource := { Raw := "garbage" } }]) := by
  refine ⟨rfl, rfl, rfl⟩

end XfnMany

namespace XfnRandom

/-! Claims about `xfn-random` -/

/-- C4: attribute stability. For every envelope whose observed names are pairwise
distinct, every desired entry whose name is that of an observed record with a
non-empty colour is rewritten into the JSON of its own `Robot` with the colour
set to exactly that observed colour, whatever colour it carried on input and
whatever the random source yields. -/
theorem main_keeps_observed_color (lib : Lib) (prng : PRNG) (b : String) (obj out : FunctionIO)
    (o : ObservedResource) (ro : Robot) (i : Nat) (d : DesiredResource)
    (hobj : lib.yamlUnmarshalEnvelope b = .ok obj)
    (hnames : (obj.Observed.Resources.map (fun o => o.Name)).Nodup)
    (hout : main lib prng (.ok b) = .exit0 out)
    (ho : o ∈ obj.Observed.Resources)
    (hro : lib.jsonUnmarshalRobot o.Resource.Raw = .ok ro)
    (hcolor : ro.Spec.ForProvider.Color ≠ "")
    (hd : obj.Desired.Resources[i]? = some d)
    (hname : d.Name = o.Name) :
    ∃ (r : Robot) (raw : String),
      lib.yamlUnmarshalRobot d.Resource.Raw = .ok r ∧
      (r.setColor ro.Spec.ForProvider.Color).Spec.ForProvider.Color = ro.Spec.ForProvider.Color ∧
      lib.jsonMarshalRobot (r.setColor ro.Spec.ForProvider.Color) = .ok raw ∧
      out.Desired.Resources[i]? = some { d with Resource := { Raw := raw } } := by
  obtain ⟨obj1, colors, resources, e1, e2, e3, e4⟩ := random_main_exit0 hout
  rw [hobj] at e1; cases e1
  subst e4
  obtain ⟨-, hall⟩ := mergeDesired_spec _ _ _ _ _ e3
  obtain ⟨r, color, raw, h1, h2, h3, h4, -⟩ := hall i d hd
  have hc : colors d.Name = ro.Spec.ForProvider.Color := by
    rw [hname]
    exact observedColors_present lib _ _ _ e2 hnames o ho ro hro
  have hcol : color = ro.Spec.ForProvider.Color := by
    rw [← hc]
    exact h4 (by rw [hc]; exact hcolor)
  subst hcol
  exact ⟨r, raw, h1, rfl, h2, h3⟩

/-- An instance of C4: the observed colour `pink` of `a` is copied to the desired `a`. -/
theorem main_keeps_observed_color_witness :
    ∃ (r : Robot) (raw : String),
      (Demo.lib [("stdin", Demo.envelope [Demo.found "a" "pink"] [Demo.wanted "a" ""])]
        []).yamlUnmarshalRobot (Demo.wanted "a" "").Resource.Raw = .ok r ∧
      (r.setColor ((Robot.zero.setColor "pink").SetName "a").Spec.ForProvider.Color).Spec.ForProvider.Color
        = ((Robot.zero.setColor "pink").SetName "a").Spec.ForProvider.Color ∧
      (Demo.lib [("stdin", Demo.envelope [Demo.found "a" "pink"] [Demo.wanted "a" ""])]
        []).jsonMarshalRobot
          (r.setColor ((Robot.zero.setColor "pink").SetName "a").Spec.ForProvider.Color) = .ok raw ∧
      (Demo.envelope [Demo.found "a" "pink"] [Demo.wanted "a" "pink"]).Desired.Resources[0]?
        = some { Demo.wanted "a" "" with Resource := { Raw := raw } } :=
  main_keeps_observed_color
    (Demo.lib [("stdin", Demo.envelope [Demo.found "a" "pink"] [Demo.wanted "a" ""])] [])
    (fun _ => 0) "stdin"
    (Demo.envelope [Demo.found "a" "pink"] [Demo.wanted "a" ""])
    (Demo.envelope [Demo.found "a" "pink"] [Demo.wanted "a" "pink"])
    (Demo.found "a" "pink") ((Robot.zero.setColor "pink").SetName "a") 0 (Demo.wanted "a" "")
    rfl (by decide) rfl (by decide) rfl (by decide) rfl rfl

/-- No run of `xfn-random` panics. -/
theorem main_no_panic (lib : Lib) (prng : PRNG) (stdin : Except String String) (msg : String) :
    main lib prng stdin ≠ .panic msg := by
  intro h
  unfold main at h
  cases stdin with
  | error e => simp [orExit, Outcome.ofExcept] at h
  | ok b =>
    cases h1 : lib.yamlUnmarshalEnvelope b with
    | error e => simp [h1, orExit, Outcome.ofExcept] at h
    | ok obj =>
      cases h2 : observedColors lib obj.Observed.Resources (fun _ => "") with
      | error f =>
        cases f with
        | error m => simp [h1, h2, orExit, Outcome.ofExcept] at h
        | panic m => exact observedColors_no_panic lib _ _ _ h2
      | ok colors =>
        cases h3 : mergeDesired lib colors obj.Desired.Resources prng with
        | error f =>
          cases f with
          | error m => simp [h1, h2, h3, orExit, Outcome.ofExcept] at h
          | panic m => exact mergeDesired_no_panic lib _ _ _ _ h3
        | ok resources =>
          simp only [h1, h2, h3, orExit] at h
          split at h
          · rename_i f hf
            split at hf
            · cases hf
            · cases hf; simp [Outcome.ofExcept] at h
          · simp [Outcome.ofExcept] at h

/-- C5: attribute initialization. For every envelope and every outcome of the
random source, every desired entry whose name has no observed record, or only
observed records of empty colour, is rewritten in the output into the JSON of
its own `Robot` with a colour `Colors[k]`, where `k` is a draw reduced modulo
the 8 entries of `Colors`, hence within bounds; that colour is a member of
`Colors` and is not empty. No run of `main` panics on an index. -/
theorem main_fresh_color (lib : Lib) (prng : PRNG) (b : String) (obj out : FunctionIO)
    (i : Nat) (d : DesiredResource)
    (hobj : lib.yamlUnmarshalEnvelope b = .ok obj)
    (hout : main lib prng (.ok b) = .exit0 out)
    (hd : obj.Desired.Resources[i]? = some d)
    (hempty : ∀ o ∈ obj.Observed.Resources, o.Name = d.Name →
      ∀ ro, lib.jsonUnmarshalRobot o.Resource.Raw = .ok ro → ro.Spec.ForProvider.Color = "") :
    (∀ stdin msg, main lib prng stdin ≠ .panic msg) ∧
    ∃ (r : Robot) (j : Nat) (color raw : String),
      lib.yamlUnmarshalRobot d.Resource.Raw = .ok r ∧
      Colors.length = 8 ∧
      prng j % Colors.length < Colors.length ∧
      Colors[prng j % Colors.length]? = some color ∧
      color ∈ Colors ∧ color ≠ "" ∧
      (r.setColor color).Spec.ForProvider.Color = color ∧
      lib.jsonMarshalRobot (r.setColor color) = .ok raw ∧
      out.Desired.Resources[i]? = some { d with Resource := { Raw := raw } } := by
  refine ⟨fun stdin msg => main_no_panic lib prng stdin msg, ?_⟩
  obtain ⟨obj1, colors, resources, e1, e2, e3, e4⟩ := random_main_exit0 hout
  rw [hobj] at e1; cases e1
  subst e4
  obtain ⟨-, hall⟩ := mergeDesired_spec _ _ _ _ _ e3
  obtain ⟨r, color, raw, h1, h2, h3, -, h5⟩ := hall i d hd
  have hc : colors d.Name = "" := observedColors_absent lib d.Name _ _ _ e2 rfl hempty
  obtain ⟨j, hj1, hj2⟩ := h5 hc
  have hmem : color ∈ Colors := List.getElem?_mem hj2
  exact ⟨r, j, color, raw, h1, rfl, hj1, hj2, hmem, Colors_nonempty color hmem, rfl, h2, h3⟩

/-- An instance of C5: the desired `b` has no observed record and gets `Colors[10 % 8]`. -/
theorem main_fresh_color_witness :
    (∀ stdin msg, main (Demo.lib [("stdin", Demo.envelope [Demo.found "a" ""]
        [Demo.wanted "a" "", Demo.wanted "b" "pink"])] []) (fun _ => 10) stdin ≠ .panic msg) ∧
    ∃ (r : Robot) (j : Nat) (color raw : String),
      (Demo.lib [("stdin", Demo.envelope [Demo.found "a" ""]
          [Demo.wanted "a" "", Demo.wanted "b" "pink"])] []).yamlUnmarshalRobot
        (Demo.wanted "b" "pink").Resource.Raw = .ok r ∧
      Colors.length = 8 ∧
      (fun _ => 10 : PRNG) j % Colors.length < Colors.length ∧
      Colors[(fun _ => 10 : PRNG) j % Colors.length]? = some color ∧
      color ∈ Colors ∧ color ≠ "" ∧
      (r.setColor color).Spec.ForProvider.Color = color ∧
      (Demo.lib [("stdin", Demo.envelope [Demo.found "a" ""]
          [Demo.wanted "a" "", Demo.wanted "b" "pink"])] []).jsonMarshalRobot (r.setColor color)
        = .ok raw ∧
      (Demo.envelope [Demo.found "a" ""]
          [Demo.wanted "a" "blue", Demo.wanted "b" "blue"]).Desired.Resources[1]?
        = some { Demo.wanted "b" "pink" with Resource := { Raw := raw } } :=
  main_fresh_color
    (Demo.lib [("stdin", Demo.envelope [Demo.found "a" ""]
      [Demo.wanted "a" "", Demo.wanted "b" "pink"])] [])
    (fun _ => 10) "stdin"
    (Demo.envelope [Demo.found "a" ""] [Demo.wanted "a" "", Demo.wanted "b" "pink"])
    (Demo.envelope [Demo.found "a" ""] [Demo.wanted "a" "blue", Demo.wanted "b" "blue"])
    1 (Demo.wanted "b" "pink") rfl rfl rfl
    (by
      intro o ho hname
      simp only [Demo.envelope, List.mem_singleton] at ho
      subst ho
      exact absurd hname (by decide))

/-- C6 (amended): invariant I2 with the non-emptiness guard. For every envelope
whose observed names are pairwise distinct, after the merger every desired
entry is the JSON of its own `Robot` with a colour such that: if its name is
that of an observed record of non-empty colour, the colour is that observed
colour; and if its name has no observed record, or one of empty colour, the
colour is a member of `Colors`. -/
theorem main_invariant_I2 (lib : Lib) (prng : PRNG) (b : String) (obj out : FunctionIO)
    (i : Nat) (d : DesiredResource)
    (hobj : lib.yamlUnmarshalEnvelope b = .ok obj)
    (hnames : (obj.Observed.Resources.map (fun o => o.Name)).Nodup)
    (hout : main lib prng (.ok b) = .exit0 out)
    (hd : obj.Desired.Resources[i]? = some d) :
    ∃ (r : Robot) (color raw : String),
      lib.yamlUnmarshalRobot d.Resource.Raw = .ok r ∧
      lib.jsonMarshalRobot (r.setColor color) = .ok raw ∧
      out.Desired.Resources[i]? = some { d with Resource := { Raw := raw } } ∧
      (∀ o ∈ obj.Observed.Resources, o.Name = d.Name →
        ∀ ro, lib.jsonUnmarshalRobot o.Resource.Raw = .ok ro →
          ro.Spec.ForProvider.Color ≠ "" → color = ro.Spec.ForProvider.Color) ∧
      ((∀ o ∈ obj.Observed.Resources, o.Name = d.Name →
        ∀ ro, lib.jsonUnmarshalRobot o.Resource.Raw = .ok ro →
          ro.Spec.ForProvider.Color = "") → color ∈ Colors) := by
  obtain ⟨obj1, colors, resources, e1, e2, e3, e4⟩ := random_main_exit0 hout
  rw [hobj] at e1; cases e1
  subst e4
  obtain ⟨-, hall⟩ := mergeDesired_spec _ _ _ _ _ e3
  obtain ⟨r, color, raw, h1, h2, h3, h4, h5⟩ := hall i d hd
  refine ⟨r, color, raw, h1, h2, h3, ?_, ?_⟩
  · intro o ho hname ro hro hne
    have hc : colors d.Name = ro.Spec.ForProvider.Color := by
      rw [← hname]
      exact observedColors_present lib _ _ _ e2 hnames o ho ro hro
    rw [← hc]
    exact h4 (by rw [hc]; exact hne)
  · intro hempty
    have hc : colors d.Name = "" := observedColors_absent lib d.Name _ _ _ e2 rfl hempty
    obtain ⟨j, -, hj2⟩ := h5 hc
    exact List.getElem?_mem hj2

/-- C6 (as stated) fails: the observed record `a` has the empty colour and the
desired entry `a` comes out with the colour `blue`, not with the observed
(empty) colour. -/
theorem main_invariant_I2_counterexample :
    (Demo.lib [] []).jsonUnmarshalRobot (Demo.found "a" "").Resource.Raw
      = .ok ((Robot.zero.setColor "").SetName "a") ∧
    main (Demo.lib [("stdin", Demo.envelope [Demo.found "a" ""] [Demo.wanted "a" ""])] [])
      (fun _ => 10) (.ok "stdin")
      = .exit0 (Demo.envelope [Demo.found "a" ""] [Demo.wanted "a" "blue"]) ∧
    (Demo.lib [] []).jsonUnmarshalRobot (Demo.wanted "a" "blue").Resource.Raw
      = .ok ((Robot.zero.setColor "blue").SetName "a") ∧
    ((Robot.zero.setColor "blue").SetName "a").Spec.ForProvider.Color
      ≠ ((Robot.zero.setColor "").SetName "a").Spec.ForProvider.Color := by
  refine ⟨rfl, rfl, rfl, by decide⟩

/-- An instance of C6 (amended): the observed colour `pink` of `a`. -/
theorem main_invariant_I2_witness :
    ∃ (r : Robot) (color raw : String),
      (Demo.lib [("stdin", Demo.envelope [Demo.found "a" "pink"] [Demo.wanted "a" ""])]
        []).yamlUnmarshalRobot (Demo.wanted "a" "").Resource.Raw = .ok r ∧
      (Demo.lib [("stdin", Demo.envelope [Demo.found "a" "pink"] [Demo.wanted "a" ""])]
        []).jsonMarshalRobot (r.setColor color) = .ok raw ∧
      (Demo.envelope [Demo.found "a" "pink"] [Demo.wanted "a" "pink"]).Desired.Resources[0]?
        = some { Demo.wanted "a" "" with Resource := { Raw := raw } } ∧
      (∀ o ∈ (Demo.envelope [Demo.found "a" "pink"] [Demo.wanted "a" ""]).Observed.Resources,
        o.Name = (Demo.wanted "a" "").Name →
        ∀ ro, (Demo.lib [("stdin", Demo.envelope [Demo.found "a" "pink"] [Demo.wanted "a" ""])]
          []).jsonUnmarshalRobot o.Resource.Raw = .ok ro →
          ro.Spec.ForProvider.Color ≠ "" → color = ro.Spec.ForProvider.Color) ∧
      ((∀ o ∈ (Demo.envelope [Demo.found "a" "pink"] [Demo.wanted "a" ""]).Observed.Resources,
        o.Name = (Demo.wanted "a" "").Name →
        ∀ ro, (Demo.lib [("stdin", Demo.envelope [Demo.found "a" "pink"] [Demo.wanted "a" ""])]
          []).jsonUnmarshalRobot o.Resource.Raw = .ok ro →
          ro.Spec.ForProvider.Color = "") → color ∈ Colors) :=
  main_invariant_I2
    (Demo.lib [("stdin", Demo.envelope [Demo.found "a" "pink"] [Demo.wanted "a" ""])] [])
    (fun _ => 0) "stdin"
    (Demo.envelope [Demo.found "a" "pink"] [Demo.wanted "a" ""])
    (Demo.envelope [Demo.found "a" "pink"] [Demo.wanted "a" "pink"])
    0 (Demo.wanted "a" "") rfl (by decide) rfl rfl

/-- C7 (amended): frame of the Attribute Merger. For every input envelope on
which it succeeds, the output `desired.resources` list has the length of the
input list and the same record names in the same order; the entry at every
index is the input entry with its payload replaced by `json.Marshal` of the
`Robot` that `yaml.Unmarshal` read from the input payload, with its colour
set, so that the payload keeps what that `Robot` holds and nothing else of the
input bytes; the other fields of the entry and the rest of the envelope are
unchanged. -/
theorem main_frame (lib : Lib) (prng : PRNG) (b : String) (obj out : FunctionIO)
    (hobj : lib.yamlUnmarshalEnvelope b = .ok obj)
    (hout : main lib prng (.ok b) = .exit0 out) :
    out.Desired.Resources.length = obj.Desired.Resources.length ∧
    out.Desired.Resources.map (fun d => d.Name) = obj.Desired.Resources.map (fun d => d.Name) ∧
    (∀ (i : Nat) (d : DesiredResource), obj.Desired.Resources[i]? = some d →
      ∃ (r : Robot) (color raw : String),
        lib.yamlUnmarshalRobot d.Resource.Raw = .ok r ∧
        lib.jsonMarshalRobot { r with Spec := { ForProvider := { Color := color } } } = .ok raw ∧
        out.Desired.Resources[i]? = some { d with Resource := { Raw := raw } }) ∧
    out.Observed = obj.Observed ∧ out.Desired.Composite = obj.Desired.Composite ∧
    out.Config = obj.Config ∧ out.Results = obj.Results := by
  obtain ⟨obj1, colors, resources, e1, e2, e3, e4⟩ := random_main_exit0 hout
  rw [hobj] at e1; cases e1
  subst e4
  obtain ⟨hlen, hall⟩ := mergeDesired_spec _ _ _ _ _ e3
  refine ⟨hlen, mergeDesired_names _ _ _ _ _ e3, ?_, rfl, rfl, rfl, rfl⟩
  · intro i d hd
    obtain ⟨r, color, raw, h1, h2, h3, -⟩ := hall i d hd
    exact ⟨r, color, raw, h1, h2, h3⟩

/-- C7 (as stated) fails: the desired entry `a` holds a robot of colour `pink`
followed by content that is no part of a `Robot`, and `a` is observed with the
colour `pink`. The output entry has the same colour `pink`, yet its payload is
not the input payload: the content outside the `Robot` is gone. -/
theorem main_frame_counterexample :
    Demo.decodeLoose (Demo.extended "a" "pink" "note").Resource.Raw
      = .ok ((Robot.zero.setColor "pink").SetName "a") ∧
    main (Demo.looseLib (Demo.envelope [Demo.found "a" "pink"]
        [Demo.extended "a" "pink" "note"])) (fun _ => 0) (.ok "stdin")
      = .exit0 (Demo.envelope [Demo.found "a" "pink"] [Demo.wanted "a" "pink"]) ∧
    Demo.decodeLoose (Demo.wanted "a" "pink").Resource.Raw
      = .ok ((Robot.zero.setColor "pink").SetName "a") ∧
    (Demo.wanted "a" "pink").Resource.Raw ≠ (Demo.extended "a" "pink" "note").Resource.Raw := by
  refine ⟨rfl, rfl, rfl, by decide⟩

/-- An instance of C7 (amended): two desired records, `a` observed and `b` not. -/
theorem main_frame_witness :
    (Demo.envelope [Demo.found "a" "pink"]
        [Demo.wanted "a" "pink", Demo.wanted "b" "red"]).Desired.Resources.length
      = (Demo.envelope [Demo.found "a" "pink"]
        [Demo.wanted "a" "", Demo.wanted "b" ""]).Desired.Resources.length ∧
    (Demo.envelope [Demo.found "a" "pink"]
        [Demo.wanted "a" "pink", Demo.wanted "b" "red"]).Desired.Resources.map (fun d => d.Name)
      = (Demo.envelope [Demo.found "a" "pink"]
        [Demo.wanted "a" "", Demo.wanted "b" ""]).Desired.Resources.map (fun d => d.Name) ∧
    (∀ (i : Nat) (d : DesiredResource),
      (Demo.envelope [Demo.found "a" "pink"]
        [Demo.wanted "a" "", Demo.wanted "b" ""]).Desired.Resources[i]? = some d →
      ∃ (r : Robot) (color raw : String),
        (Demo.lib [("stdin", Demo.envelope [Demo.found "a" "pink"]
          [Demo.wanted "a" "", Demo.wanted "b" ""])] []).yamlUnmarshalRobot d.Resource.Raw
            = .ok r ∧
        (Demo.lib [("stdin", Demo.envelope [Demo.found "a" "pink"]
          [Demo.wanted "a" "", Demo.wanted "b" ""])] []).jsonMarshalRobot
            { r with Spec := { ForProvider := { Color := color } } } = .ok raw ∧
        (Demo.envelope [Demo.found "a" "pink"]
          [Demo.wanted "a" "pink", Demo.wanted "b" "red"]).Desired.Resources[i]?
            = some { d with Resource := { Raw := raw } }) ∧
    (Demo.envelope [Demo.found "a" "pink"]
        [Demo.wanted "a" "pink", Demo.wanted "b" "red"]).Observed
      = (Demo.envelope [Demo.found "a" "pink"]
        [Demo.wanted "a" "", Demo.wanted "b" ""]).Observed ∧
    (Demo.envelope [Demo.found "a" "pink"]
        [Demo.wanted "a" "pink", Demo.wanted "b" "red"]).Desired.Composite
      = (Demo.envelope [Demo.found "a" "pink"]
        [Demo.wanted "a" "", Demo.wanted "b" ""]).Desired.Composite ∧
    (Demo.envelope [Demo.found "a" "pink"]
        [Demo.wanted "a" "pink", Demo.wanted "b" "red"]).Config
      = (Demo.envelope [Demo.found "a" "pink"]
        [Demo.wanted "a" "", Demo.wanted "b" ""]).Config ∧
    (Demo.envelope [Demo.found "a" "pink"]
        [Demo.wanted "a" "pink", Demo.wanted "b" "red"]).Results
      = (Demo.envelope [Demo.found "a" "pink"]
        [Demo.wanted "a" "", Demo.wanted "b" ""]).Results :=
  main_frame
    (Demo.lib [("stdin", Demo.envelope [Demo.found "a" "pink"]
      [Demo.wanted "a" "", Demo.wanted "b" ""])] [])
    (fun _ => 0) "stdin"
    (Demo.envelope [Demo.found "a" "pink"] [Demo.wanted "a" "", Demo.wanted "b" ""])
    (Demo.envelope [Demo.found "a" "pink"] [Demo.wanted "a" "pink", Demo.wanted "b" "red"])
    rfl rfl

/-- C8 (amended): abort on a malformed observed child, for the Attribute Merger.
For every input envelope in which the payload of some `observed.resources`
entry cannot be decoded as a `Robot`, `xfn-random` ends with exit code 1 and
prints no envelope. -/
theorem main_aborts_on_malformed_observed (lib : Lib) (prng : PRNG) (b : String)
    (obj : FunctionIO)
    (hobj : lib.yamlUnmarshalEnvelope b = .ok obj)
    (hbad : ∃ o ∈ obj.Observed.Resources, ∃ e, lib.jsonUnmarshalRobot o.Resource.Raw = .error e) :
    ∃ stderr, main lib prng (.ok b) = .exit1 stderr := by
  obtain ⟨msg, hmsg⟩ := observedColors_error lib obj.Observed.Resources (fun _ => "") hbad
  exact ⟨msg, by simp [main, hobj, hmsg, orExit, Outcome.ofExcept]⟩

/-- An instance of C8 (amended): the observed record `bad` holds no `Robot`. -/
theorem main_aborts_on_malformed_observed_witness :
    ∃ stderr, main (Demo.lib [("stdin", Demo.envelope
        [Demo.found "a" "pink", { Name := "bad", Resource := { Raw := "garbage" } }]
        [Demo.wanted "a" ""])] []) (fun _ => 0) (.ok "stdin") = .exit1 stderr :=
  main_aborts_on_malformed_observed
    (Demo.lib [("stdin", Demo.envelope
      [Demo.found "a" "pink", { Name := "bad", Resource := { Raw := "garbage" } }]
      [Demo.wanted "a" ""])] [])
    (fun _ => 0) "stdin"
    (Demo.envelope [Demo.found "a" "pink", { Name := "bad", Resource := { Raw := "garbage" } }]
      [Demo.wanted "a" ""])
    rfl
    ⟨{ Name := "bad", Resource := { Raw := "garbage" } }, by decide,
      "cannot unmarshal into Go value of type Robot", rfl⟩

/-- C10 (amended): cross-cycle fixpoint of the Attribute Merger when the decoders
read back what `json.Marshal` writes. Let `out1` be the envelope printed by a
first run on an envelope whose desired names are pairwise distinct, and
suppose that from every payload of `out1.desired.resources` both
`yaml.Unmarshal` and `json.Unmarshal` give back the `Robot` whose JSON it is.
A second run, under any random outcome, on an envelope that can be serialized,
whose observed records are the names and payloads of `out1.desired.resources`
and whose desired list is that same list, prints an envelope with that list
unchanged: no colour is regenerated. -/
theorem main_second_cycle_fixpoint (lib : Lib) (prng1 prng2 : PRNG) (b1 b2 : String)
    (obj1 out1 obj2 : FunctionIO)
    (hobj1 : lib.yamlUnmarshalEnvelope b1 = .ok obj1)
    (hnames : (obj1.Desired.Resources.map (fun d => d.Name)).Nodup)
    (hout1 : main lib prng1 (.ok b1) = .exit0 out1)
    (hread : ∀ e ∈ out1.Desired.Resources, ∀ r, lib.jsonMarshalRobot r = .ok e.Resource.Raw →
      lib.yamlUnmarshalRobot e.Resource.Raw = .ok r ∧
      lib.jsonUnmarshalRobot e.Resource.Raw = .ok r)
    (hobj2 : lib.yamlUnmarshalEnvelope b2 = .ok obj2)
    (hobs2 : obj2.Observed.Resources.map (fun o => (o.Name, o.Resource))
      = out1.Desired.Resources.map (fun d => (d.Name, d.Resource)))
    (hdes2 : obj2.Desired.Resources = out1.Desired.Resources)
    (hwrite : ∃ text, lib.yamlMarshalEnvelope obj2 = .ok text) :
    ∃ out2, main lib prng2 (.ok b2) = .exit0 out2 ∧
      out2.Desired.Resources = out1.Desired.Resources := by
  obtain ⟨obj, colors1, resources1, e1, -, e3, e4⟩ := random_main_exit0 hout1
  rw [hobj1] at e1; cases e1
  subst e4
  simp only at hobs2 hdes2 hread
  have hcolored := mergeDesired_colored _ _ _ _ _ e3
  have hnames1 : (resources1.map (fun d => d.Name)).Nodup := by
    rw [mergeDesired_names _ _ _ _ _ e3]; exact hnames
  -- every observed record of the second cycle is one of the entries written by the first
  have hfrom : ∀ o ∈ obj2.Observed.Resources,
      ∃ e ∈ resources1, e.Name = o.Name ∧ e.Resource = o.Resource := by
    intro o ho
    have hmem : (o.Name, o.Resource) ∈ resources1.map (fun d => (d.Name, d.Resource)) := by
      rw [← hobs2]; exact List.mem_map.mpr ⟨o, ho, rfl⟩
    obtain ⟨e, he, heq⟩ := List.mem_map.mp hmem
    simp only [Prod.mk.injEq] at heq
    exact ⟨e, he, heq.1, heq.2⟩
  have hto : ∀ e ∈ resources1,
      ∃ o ∈ obj2.Observed.Resources, o.Name = e.Name ∧ o.Resource = e.Resource := by
    intro e he
    have hmem : (e.Name, e.Resource) ∈ obj2.Observed.Resources.map (fun o => (o.Name, o.Resource)) := by
      rw [hobs2]; exact List.mem_map.mpr ⟨e, he, rfl⟩
    obtain ⟨o, ho, heq⟩ := List.mem_map.mp hmem
    simp only [Prod.mk.injEq] at heq
    exact ⟨o, ho, heq.1, heq.2⟩
  have hnames2 : (obj2.Observed.Resources.map (fun o => o.Name)).Nodup := by
    have h := congrArg (fun l => l.map Prod.fst) hobs2
    simp only [List.map_map, Function.comp_def] at h
    rw [h]; exact hnames1
  -- the first loop of the second run succeeds
  obtain ⟨colors2, hcolors2⟩ := observedColors_total lib obj2.Observed.Resources (fun _ => "")
    (by
      intro o ho
      obtain ⟨e, he, -, hres⟩ := hfrom o ho
      obtain ⟨r, c, -, hm⟩ := hcolored e he
      exact ⟨r.setColor c, by rw [← hres]; exact (hread e he _ hm).2⟩)
  -- the second loop rewrites every entry into itself
  have hstable : mergeDesired lib colors2 obj2.Desired.Resources prng2
      = .ok obj2.Desired.Resources := by
    apply mergeDesired_stable
    intro e he
    rw [hdes2] at he
    obtain ⟨r, c, hc, hm⟩ := hcolored e he
    obtain ⟨o, ho, hname, hres⟩ := hto e he
    have hcol : colors2 e.Name = c := by
      rw [← hname]
      have := observedColors_present lib _ _ _ hcolors2 hnames2 o ho (r.setColor c)
        (by rw [hres]; exact (hread e he _ hm).2)
      simpa [Robot.setColor] using this
    refine ⟨r.setColor c, (hread e he _ hm).1, by rw [hcol]; exact hc, ?_⟩
    rw [hcol]
    exact hm
  obtain ⟨text, htext⟩ := hwrite
  exact ⟨obj2, main_of_stages hobj2 hcolors2 hstable htext, hdes2⟩

/-- C10 (as stated) fails when a decoder does not read back what `json.Marshal`
wrote: here `json.Marshal` puts a mark before the text form. The first run
prints the list `[a, b]` with the colours `pink` and `blue`; the second run, on
that list as observed and as desired, ends with exit code 1 at the first
observed payload and prints nothing. -/
theorem main_second_cycle_fixpoint_counterexample :
    ((Demo.envelope [Demo.found "a" "pink"]
      [Demo.wanted "a" "", Demo.wanted "b" ""]).Desired.Resources.map (fun d => d.Name)).Nodup ∧
    main (Demo.markLib
        (Demo.envelope [Demo.found "a" "pink"] [Demo.wanted "a" "", Demo.wanted "b" ""])
        (Demo.envelope
          [{ Name := "a", Resource := Demo.marked "a" "pink" },
            { Name := "b", Resource := Demo.marked "b" "blue" }]
          [{ Name := "a", Resource := Demo.marked "a" "pink" },
            { Name := "b", Resource := Demo.marked "b" "blue" }]))
        (fun _ => 10) (.ok "cycle1")
      = .exit0 (Demo.envelope [Demo.found "a" "pink"]
          [{ Name := "a", Resource := Demo.marked "a" "pink" },
            { Name := "b", Resource := Demo.marked "b" "blue" }]) ∧
    main (Demo.markLib
        (Demo.envelope [Demo.found "a" "pink"] [Demo.wanted "a" "", Demo.wanted "b" ""])
        (Demo.envelope
          [{ Name := "a", Resource := Demo.marked "a" "pink" },
            { Name := "b", Resource := Demo.marked "b" "blue" }]
          [{ Name := "a", Resource := Demo.marked "a" "pink" },
            { Name := "b", Resource := Demo.marked "b" "blue" }]))
        (fun _ => 5) (.ok "cycle2")
      = .exit1 ("failed to unmarshal observed resource: "
          ++ "cannot unmarshal into Go value of type Robot") := by
  refine ⟨by decide, rfl, rfl⟩

/-- An instance of C10 (amended): the output of a first cycle fed back as observed
and desired. -/
theorem main_second_cycle_fixpoint_witness :
    ∃ out2, main (Demo.cycleLib
        (Demo.envelope [Demo.found "a" "pink"] [Demo.wanted "a" "", Demo.wanted "b" ""])
        (Demo.envelope [Demo.found "a" "pink", Demo.found "b" "blue"]
          [Demo.wanted "a" "pink", Demo.wanted "b" "blue"]))
        (fun _ => 5) (.ok "cycle2") = .exit0 out2 ∧
      out2.Desired.Resources
        = (Demo.envelope [Demo.found "a" "pink"]
            [Demo.wanted "a" "pink", Demo.wanted "b" "blue"]).Desired.Resources :=
  main_second_cycle_fixpoint
    (Demo.cycleLib
      (Demo.envelope [Demo.found "a" "pink"] [Demo.wanted "a" "", Demo.wanted "b" ""])
      (Demo.envelope [Demo.found "a" "pink", Demo.found "b" "blue"]
        [Demo.wanted "a" "pink", Demo.wanted "b" "blue"]))
    (fun _ => 10) (fun _ => 5) "cycle1" "cycle2"
    (Demo.envelope [Demo.found "a" "pink"] [Demo.wanted "a" "", Demo.wanted "b" ""])
    (Demo.envelope [Demo.found "a" "pink"] [Demo.wanted "a" "pink", Demo.wanted "b" "blue"])
    (Demo.envelope [Demo.found "a" "pink", Demo.found "b" "blue"]
      [Demo.wanted "a" "pink", Demo.wanted "b" "blue"])
    rfl (by decide) rfl
    (fun e _ r hr => by
      have h : Demo.encodeRobot r = e.Resource.Raw := Except.ok.inj hr
      rw [← h]
      exact ⟨Demo.decodeRobot_encodeRobot r, Demo.decodeRobot_encodeRobot r⟩)
    rfl rfl rfl ⟨"functionio", rfl⟩

end XfnRandom
end Contribfest
